import Mathlib

/-!
Shallow embedding of the `m` struct-to-database-row mapper (mapper.go) and
proofs of the specification claims about it.

Conventions of the embedding:
* Go `interface{}` values are modelled by `GoValue`, to the granularity the
  mapper inspects them: kind, nil-ness of pointers, and length of
  slices/maps/arrays.  Scalar payloads are kept concrete so statements can be
  evaluated.
* A struct instance is a list of its field values in declaration order; a
  struct type, for registration purposes, is the list of its fields' `db` tag
  strings (the empty string for an untagged field).
* Go operations that can panic (out-of-range string slicing and indexing) are
  modelled with `Option`: `none` is the panic.
* The JSON encoder/decoder is an external collaborator of the mapper (an
  opaque `encode`/`decode` pair); `jsonMarshal` below is a stand-in encoder
  and row-decoding takes the decoder as an explicit argument.
* All string operations in the source act on ASCII text, where Go's byte
  indexing and Lean's character indexing agree.
-/

/-- The two SQL dialect families (`const Cassandra DBType = iota; PostgreSQL`). -/
inductive DBType where
  | Cassandra
  | PostgreSQL
deriving DecidableEq, Repr

/-- A Go value, to the granularity the mapper inspects it. -/
inductive GoValue where
  | ptrNil
  | ptrTo (v : GoValue)
  | slice (len : Nat)
  | mapLen (len : Nat)
  | arr (len : Nat)
  | str (s : String)
  | intv (n : Int)
  | boolv (b : Bool)
  | zeroVal
deriving DecidableEq, Repr

/-- `reflect.Indirect`: dereference a non-nil pointer, otherwise identity. -/
def GoValue.indirect : GoValue → GoValue
  | .ptrTo v => v
  | v => v

/-- The skip test of `prepareInsertSqlColumnsValues`: nil pointers and
empty slices/maps/arrays are omitted from the INSERT statement. -/
def GoValue.skippedOnInsert : GoValue → Bool
  | .ptrNil => true
  | .slice n => n < 1
  | .mapLen n => n < 1
  | .arr n => n < 1
  | _ => false

/-- Stand-in for the opaque external JSON encoder used on serialize-flagged
columns (`json.Marshal`); the mapper treats its output as an opaque string. -/
def jsonMarshal : GoValue → String
  | .ptrNil => "null"
  | .ptrTo v => jsonMarshal v
  | .slice n => "[\"slice:" ++ toString n ++ "\"]"
  | .mapLen n => "\x7b\"map\":" ++ toString n ++ "\x7d"
  | .arr n => "[\"arr:" ++ toString n ++ "\"]"
  | .str s => "\"" ++ s ++ "\""
  | .intv n => toString n
  | .boolv b => toString b
  | .zeroVal => "null"

/-- `type columnMap struct` — per-column metadata built at registration. -/
structure columnMap where
  Name : String
  Serialize : Bool
  PrimaryKey : Bool
  Field : Nat
deriving DecidableEq, Repr

/-- `type tableMap struct` — table name plus ordered columns.  (The
back-reference to the `Mapping` is replaced by passing the dialect
explicitly.) -/
structure tableMap where
  Name : String
  Columns : List columnMap
deriving DecidableEq, Repr

/-- `strings.Split(s, ",")` on the character list: split at every comma;
the empty string yields one empty token, like Go. -/
def splitCommaChars : List Char → List (List Char)
  | [] => [[]]
  | c :: rest =>
    match splitCommaChars rest with
    | [] => [[c]]
    | g :: gs => if c = ',' then [] :: g :: gs else (c :: g) :: gs

/-- `strings.Split(s, ",")`. -/
def goSplitComma (s : String) : List String :=
  (splitCommaChars s.data).map String.mk

/-- The flag loop of `getTableColumns`: fold the comma-separated tag tokens
into a `columnMap` (`pk` and `serialize` set flags; the first other token
that finds `Name` still empty becomes the column name). -/
def parseTagFlags (col : columnMap) : List String → columnMap
  | [] => col
  | flag :: rest =>
    if flag = "pk" then parseTagFlags { col with PrimaryKey := true } rest
    else if flag = "serialize" then parseTagFlags { col with Serialize := true } rest
    else if col.Name = "" then parseTagFlags { col with Name := flag } rest
    else parseTagFlags col rest

/-- The field loop of `getTableColumns`, carrying the field index `i`. -/
def getTableColumnsAux : Nat → List String → List columnMap
  | _, [] => []
  | i, tagStr :: rest =>
    let tag := goSplitComma tagStr
    if tag.headD "" ≠ "" then
      parseTagFlags { Name := "", Serialize := false, PrimaryKey := false, Field := i } tag ::
        getTableColumnsAux (i + 1) rest
    else
      getTableColumnsAux (i + 1) rest

/-- `getTableColumns`: build the ordered column list from the record type's
`db` tags in field-declaration order. -/
def getTableColumns (tags : List String) : List columnMap :=
  getTableColumnsAux 0 tags

/-- Go byte indexing `s[i]` (ASCII): `none` models the index-out-of-range
panic. -/
def goByte (s : String) (i : Int) : Option Char :=
  if 0 ≤ i ∧ i < (s.length : Int) then some (s.data.getD i.toNat ' ') else none

/-- Go slicing `s[:j]` (ASCII): `none` models the slice-bounds panic. -/
def goSliceTo (s : String) (j : Int) : Option String :=
  if 0 ≤ j ∧ j ≤ (s.length : Int) then some (String.mk (s.data.take j.toNat)) else none

/-- `strings.Repeat`. -/
def goRepeat (s : String) (n : Nat) : String :=
  String.mk (List.replicate n s.data).flatten

/-- The PostgreSQL branch of `sqlPlaceholders`: the loop
`for i := 0; i < n; i++ { p += "$i+1"; if i < n-1 { p += ", " } }`,
written as structural recursion on the remaining iteration count
(invariant: `i + rem = n`). -/
def sqlPlaceholdersPGAux (n : Nat) : Nat → Nat → String
  | _, 0 => ""
  | i, rem + 1 =>
    "$" ++ toString (i + 1) ++ (if i < n - 1 then ", " else "") ++
      sqlPlaceholdersPGAux n (i + 1) rem

/-- `sqlPlaceholders(n, dbt)`: `$1..$n` for PostgreSQL; for the positional
dialect, `strings.Repeat("?, ", n)[:(n*3)-2]`, whose slice bound is negative
when `n = 0` (`none` models that panic). -/
def sqlPlaceholders (n : Nat) (dbt : DBType) : Option String :=
  if dbt = DBType.PostgreSQL then
    some (sqlPlaceholdersPGAux n 0 n)
  else
    goSliceTo (goRepeat "?, " n) ((n : Int) * 3 - 2)

/-- `sqlInsertString`: `INSERT INTO <t> (<cols>) VALUES (<placeholders>)`;
`none` propagates the `sqlPlaceholders` panic. -/
def sqlInsertString (tableName : String) (columns : List String) (dbt : DBType) :
    Option String :=
  (sqlPlaceholders columns.length dbt).map fun ph =>
    "INSERT INTO " ++ tableName ++ " (" ++ String.intercalate ", " columns ++
      ") VALUES (" ++ ph ++ ")"

/-- The loop of `columnPlaceholders`, carrying the element index `i` and the
original list length `count` for the `i+1 < count` separator test. -/
def columnPlaceholdersAux (count : Nat) (sep : String) (dbt : DBType) :
    Nat → List String → String
  | _, [] => ""
  | i, column :: rest =>
    column ++ " = " ++ (if dbt = DBType.PostgreSQL then "$" ++ toString (i + 1) else "?") ++
      (if i + 1 < count then sep else "") ++
      columnPlaceholdersAux count sep dbt (i + 1) rest

/-- `columnPlaceholders(columns, sep, dbt)`: render `col = <placeholder>`
fragments joined by `sep`; `$n` numbering starts at 1 on every call. -/
def columnPlaceholders (columns : List String) (sep : String) (dbt : DBType) : String :=
  columnPlaceholdersAux columns.length sep dbt 0 columns

/-- `sqlUpdateString`: `UPDATE <t> SET <set> WHERE <keys>`, both clauses
rendered by independent `columnPlaceholders` calls. -/
def sqlUpdateString (tableName : String) (columns keys : List String) (dbt : DBType) :
    String :=
  "UPDATE " ++ tableName ++ " SET " ++ columnPlaceholders columns ", " dbt ++
    " WHERE " ++ columnPlaceholders keys " AND " dbt

/-- `prepareInsertSqlColumnsValues`: walk the table's columns in order,
skipping nil/empty field values, marshalling serialize-flagged values. -/
def prepareInsertSqlColumnsValues (fields : List GoValue) :
    List columnMap → List String × List GoValue
  | [] => ([], [])
  | column :: rest =>
    let value := fields.getD column.Field GoValue.zeroVal
    let tail := prepareInsertSqlColumnsValues fields rest
    if value.skippedOnInsert then tail
    else
      (column.Name :: tail.1,
       (if column.Serialize then GoValue.str (jsonMarshal value) else value.indirect) ::
         tail.2)

/-- `tableMap.insert`: prepare the sparse column/value lists and build the
INSERT statement handed to `DB.Exec` (`none` propagates the placeholder
panic). -/
def tableMap.insert (t : tableMap) (dbt : DBType) (fields : List GoValue) :
    Option (String × List GoValue) :=
  let cv := prepareInsertSqlColumnsValues fields t.Columns
  (sqlInsertString t.Name cv.1 dbt).map fun s => (s, cv.2)

/-- `Mapping.InsertValues`: raw escape hatch, building the INSERT statement
directly from the caller's column list. -/
def InsertValues (table : String) (columns : List String) (values : List GoValue)
    (dbt : DBType) : Option (String × List GoValue) :=
  (sqlInsertString table columns dbt).map fun s => (s, values)

/-- Lookup in the `data map[string]interface{}` argument of Update. -/
def lookupData (data : List (String × GoValue)) (name : String) : Option GoValue :=
  (data.find? fun p => p.1 = name).map Prod.snd

/-- `updateAndGetSqlColumnsValues`: for each column named in `data`, first
mutate the record's field (`destField.Set`), then stage the SET column and
value.  Returns (SET columns, SET values, mutated record). -/
def updateAndGetSqlColumnsValues (fields : List GoValue) (cols : List columnMap)
    (data : List (String × GoValue)) : List String × List GoValue × List GoValue :=
  match cols with
  | [] => ([], [], fields)
  | column :: rest =>
    match lookupData data column.Name with
    | some val =>
      let fields2 := fields.set column.Field val
      let tail := updateAndGetSqlColumnsValues fields2 rest data
      (column.Name :: tail.1,
       (if column.Serialize then GoValue.str (jsonMarshal val) else val.indirect) :: tail.2.1,
       tail.2.2)
    | none => updateAndGetSqlColumnsValues fields rest data

/-- `keysForUpdate`: collect the primary-key columns with their current field
values. -/
def keysForUpdate (fields : List GoValue) : List columnMap → List String × List GoValue
  | [] => ([], [])
  | column :: rest =>
    let tail := keysForUpdate fields rest
    if column.PrimaryKey then
      (column.Name :: tail.1, (fields.getD column.Field GoValue.zeroVal).indirect :: tail.2)
    else tail

/-- `tableMap.update`: mutate the record from `data`, then read the (post-
mutation) key values, and unconditionally build the UPDATE statement handed
to `DB.Exec`.  Returns (SQL text, bound values, mutated record); note there
is no branch that avoids executing the statement. -/
def tableMap.update (t : tableMap) (dbt : DBType) (fields : List GoValue)
    (data : List (String × GoValue)) : String × List GoValue × List GoValue :=
  let scv := updateAndGetSqlColumnsValues fields t.Columns data
  let kcv := keysForUpdate scv.2.2 t.Columns
  (sqlUpdateString t.Name scv.1 kcv.1 dbt, scv.2.1 ++ kcv.2, scv.2.2)

/-- The row value scanned for a serialize-flagged column must be a byte
buffer (`values[x] = new([]byte)`); anything else makes `rows.Scan` fail. -/
def GoValue.asBytes : GoValue → Option String
  | .str s => some s
  | _ => none

/-- The per-result-column loop of `tableMap.doSelect`: look each result
column name up among the table's columns; an unmatched name's value is
discarded (`values[x] = make([]byte, 0); continue`); a serialize-flagged
match is deferred to the deserialize phase; any other match is scanned
straight into the record field.  Returns the record after the scan together
with the deferred (field, raw value) pairs, in column order. -/
def scanRowAux (tcols : List columnMap) :
    List (String × GoValue) → List GoValue → List GoValue × List (Nat × GoValue)
  | [], inst => (inst, [])
  | (columnName, v) :: rest, inst =>
    match tcols.find? fun c => c.Name = columnName with
    | none => scanRowAux tcols rest inst
    | some column =>
      if column.Serialize then
        let tail := scanRowAux tcols rest inst
        (tail.1, (column.Field, v) :: tail.2)
      else
        scanRowAux tcols rest (inst.set column.Field v)

/-- The deserialize loop of `tableMap.doSelect`: each deferred buffer is
`json.Unmarshal`led into its field when non-empty; decode failure aborts the
call; an empty buffer leaves the field at its zero value. -/
def deserializePhase (decode : String → Option GoValue) :
    List (Nat × GoValue) → List GoValue → Except String (List GoValue)
  | [], inst => .ok inst
  | (fieldIdx, v) :: rest, inst =>
    match v.asBytes with
    | none => .error "sql: Scan error"
    | some data =>
      if data.length > 0 then
        match decode data with
        | some dv => deserializePhase decode rest (inst.set fieldIdx dv)
        | none => .error "json: cannot unmarshal"
      else deserializePhase decode rest inst

/-- Scan one result row into a freshly allocated zero record
(`reflect.New(t.Type)` modelled as `numFields` zero values). -/
def scanOneRow (decode : String → Option GoValue) (tcols : List columnMap)
    (numFields : Nat) (names : List String) (row : List GoValue) :
    Except String (List GoValue) :=
  let scanned := scanRowAux tcols (names.zip row) (List.replicate numFields GoValue.zeroVal)
  deserializePhase decode scanned.2 scanned.1

/-- The `rows.Next()` loop of `tableMap.doSelect`: scan each row in order,
returning on the first error. -/
def doSelectRows (decode : String → Option GoValue) (tcols : List columnMap)
    (numFields : Nat) (names : List String) :
    List (List GoValue) → Except String (List (List GoValue))
  | [] => .ok []
  | row :: rest =>
    match scanOneRow decode tcols numFields names row with
    | .error e => .error e
    | .ok inst =>
      match doSelectRows decode tcols numFields names rest with
      | .error e => .error e
      | .ok out => .ok (inst :: out)

/-- `tableMap.doSelect`: the executor's reply (column names and rows, or an
error from `DB.Query`/`rows.Columns`) is scattered row by row into fresh
records. -/
def doSelect (decode : String → Option GoValue) (tcols : List columnMap)
    (numFields : Nat)
    (queryResult : Except String (List String × List (List GoValue))) :
    Except String (List (List GoValue)) :=
  match queryResult with
  | .error e => .error e
  | .ok reply => doSelectRows decode tcols numFields reply.1 reply.2

/-- `Mapping.SelectOne`: run the select; `(nil, nil)` on zero rows without
error, `(nil, err)` on error, otherwise the first result `res[0]`. -/
def SelectOne (decode : String → Option GoValue) (tcols : List columnMap)
    (numFields : Nat)
    (queryResult : Except String (List String × List (List GoValue))) :
    Option (List GoValue) × Option String :=
  match doSelect decode tcols numFields queryResult with
  | .ok res => if res.length < 1 then (none, none) else (res.head?, none)
  | .error e => (none, some e)

/-- `type Query struct` — the fluent SELECT builder (the `t.m.Type` dialect
back-reference is stored directly). -/
structure Query where
  columns : String
  conditions : List String
  bindings : List GoValue
  limit : Int
  order : String
  t : tableMap
  dbt : DBType
deriving DecidableEq, Repr

/-- `Mapping.Query`: fresh builder with empty conditions and bindings. -/
def Mapping.mkQuery (t : tableMap) (dbt : DBType) (columns : String) : Query :=
  { columns := columns, conditions := [], bindings := [], limit := 0, order := "",
    t := t, dbt := dbt }

/-- The test guarding the ` =` append in `Query.Where`:
`condition[len-2] != ' ' || condition[len-3] != ' '`, with Go's
short-circuit evaluation; `none` models the index-out-of-range panic on
fragments too short for the byte accesses reached. -/
def whereNeedsEq (condition : String) : Option Bool :=
  match goByte condition ((condition.length : Int) - 2) with
  | none => none
  | some a =>
    if a ≠ ' ' then some true
    else
      match goByte condition ((condition.length : Int) - 3) with
      | none => none
      | some b => some (b ≠ ' ')

/-- `Query.Where`: append ` =` to the fragment when the guard fires, then
the ` ?` placeholder, and accumulate the condition and its binding. -/
def Query.Where (q : Query) (condition : String) (binding : GoValue) : Option Query :=
  (whereNeedsEq condition).map fun needsEq =>
    let c := (if needsEq then condition ++ " =" else condition) ++ " ?"
    { q with conditions := q.conditions ++ [c], bindings := q.bindings ++ [binding] }

/-- `Query.In`: append `col IN (<placeholders>)` sized to the bindings,
rendered in the mapping's dialect; `none` propagates the `sqlPlaceholders`
panic on zero bindings under the positional dialect. -/
def Query.In (q : Query) (column : String) (bindings : List GoValue) : Option Query :=
  (sqlPlaceholders bindings.length q.dbt).map fun ph =>
    { q with conditions := q.conditions ++ [column ++ " IN (" ++ ph ++ ")"],
             bindings := q.bindings ++ bindings }

/-- `Query.Limit`. -/
def Query.Limit (q : Query) (n : Int) : Query := { q with limit := n }

/-- `Query.Order`. -/
def Query.Order (q : Query) (o : String) : Query := { q with order := o }

/-- `Query.String`: `SELECT <columns> FROM <table>`, then the WHERE clause
joined with ` AND ` when any condition exists, then ` ORDER BY` when the
order clause is non-empty, then ` LIMIT` when the limit is positive. -/
def Query.render (q : Query) : String :=
  let s := "SELECT " ++ q.columns ++ " FROM " ++ q.t.Name
  let s := if q.conditions.length > 0 then
    s ++ " WHERE " ++ String.intercalate " AND " q.conditions else s
  let s := if q.order ≠ "" then s ++ " ORDER BY " ++ q.order else s
  if q.limit > 0 then s ++ " LIMIT " ++ toString q.limit else s

/-! ### Specification-side normal forms

The following definitions are written from the specification's words (not
from the source), to compare the source's rendering functions against. -/

/-- Specification normal form: "`?` repeated N times with `, ` separators". -/
def questionPlaceholders : Nat → String
  | 0 => ""
  | 1 => "?"
  | n + 2 => "?, " ++ questionPlaceholders (n + 1)

/-- Specification normal form, generalized start: `$i+1, $i+2, ...` for
`rem` placeholders with `, ` separators. -/
def dollarFrom (i : Nat) : Nat → String
  | 0 => ""
  | rem + 1 =>
    "$" ++ toString (i + 1) ++ (if rem = 0 then "" else ", ") ++ dollarFrom (i + 1) rem

/-- Specification normal form: "`$1..$N` with `, ` separators". -/
def dollarPlaceholders (n : Nat) : String := dollarFrom 0 n

/-- Specification normal form for `col = <placeholder>` lists: each column
equated to its placeholder, `$` numbering counting up from `i + 1`, with
`sep` between consecutive fragments. -/
def columnEqFrom (sep : String) (dbt : DBType) (i : Nat) : List String → String
  | [] => ""
  | c :: rest =>
    c ++ " = " ++ (if dbt = DBType.PostgreSQL then "$" ++ toString (i + 1) else "?") ++
      (if rest.isEmpty then "" else sep) ++ columnEqFrom sep dbt (i + 1) rest

/-- Specification normal form of the query render (§4.5): `SELECT <columns>
FROM <table>` + optional WHERE with ` AND `-joined conditions + optional
ORDER BY + optional LIMIT. -/
def renderSpec (q : Query) : String :=
  "SELECT " ++ q.columns ++ " FROM " ++ q.t.Name ++
    (if q.conditions.length > 0 then " WHERE " ++ String.intercalate " AND " q.conditions
     else "") ++
    (if q.order ≠ "" then " ORDER BY " ++ q.order else "") ++
    (if q.limit > 0 then " LIMIT " ++ toString q.limit else "")

/-- The first tag token that is neither a keyword flag nor empty — what the
tag-parsing loop ends up storing as the column name. -/
def tagNameOf (toks : List String) : String :=
  (toks.filter fun f => f != "pk" && f != "serialize" && f != "").headD ""

/-- The `posts` table of the specification's running example:
`ID int64 db:"id,pk"`, `Title string db:"title"`. -/
def postsTable : tableMap :=
  { Name := "posts", Columns := getTableColumns ["id,pk", "title"] }

/-! ### Helper lemmas -/

lemma repQ_take : ∀ n : Nat,
    ((List.replicate (n + 1) ("?, ".data)).flatten).take (3 * n + 1) =
      (questionPlaceholders (n + 1)).data := by
  intro n
  induction n with
  | zero => rfl
  | succ k ih =>
    rw [List.replicate_succ, List.flatten_cons]
    rw [List.take_append_eq_append_take]
    have h2 : ("?, ".data).take (3 * (k + 1) + 1) = "?, ".data :=
      List.take_of_length_le (by simp only [show ("?, ".data).length = 3 from rfl]; omega)
    have h3 : 3 * (k + 1) + 1 - ("?, ".data).length = 3 * k + 1 := by
      simp only [show ("?, ".data).length = 3 from rfl]; omega
    rw [h2, h3, ih]
    rfl

lemma sqlPlaceholders_cassandra (n : Nat) :
    sqlPlaceholders (n + 1) DBType.Cassandra = some (questionPlaceholders (n + 1)) := by
  have hlen : (goRepeat "?, " (n + 1)).length = 3 * (n + 1) := by
    rw [goRepeat, String.length_mk, List.length_flatten]
    simp [List.map_replicate]
    omega
  have hj : (((n + 1 : Nat) : Int) * 3 - 2) = ((3 * n + 1 : Nat) : Int) := by push_cast; ring
  unfold sqlPlaceholders
  rw [if_neg (by decide), hj]
  unfold goSliceTo
  rw [if_pos]
  · congr 1
    apply String.ext
    show ((goRepeat "?, " (n + 1)).data.take (((3 * n + 1 : Nat) : Int)).toNat) = _
    rw [Int.toNat_natCast]
    exact repQ_take n
  · refine ⟨by positivity, ?_⟩
    rw [hlen]
    push_cast
    omega

lemma sqlPlaceholdersPGAux_eq : ∀ (rem i n : Nat), i + rem = n →
    sqlPlaceholdersPGAux n i rem = dollarFrom i rem := by
  intro rem
  induction rem with
  | zero => intro i n _; rfl
  | succ k ih =>
    intro i n h
    have hif : (if i < n - 1 then ", " else "") = (if k = 0 then "" else ", ") := by
      by_cases hk : k = 0
      · rw [if_pos hk, if_neg (by omega)]
      · rw [if_neg hk, if_pos (by omega)]
    simp only [sqlPlaceholdersPGAux, dollarFrom, hif, ih (i + 1) n (by omega)]

lemma sqlPlaceholders_postgres (n : Nat) :
    sqlPlaceholders n DBType.PostgreSQL = some (dollarPlaceholders n) := by
  unfold sqlPlaceholders dollarPlaceholders
  rw [if_pos rfl, sqlPlaceholdersPGAux_eq n 0 n (by omega)]

lemma columnPlaceholdersAux_eq :
    ∀ (cols : List String) (i count : Nat) (sep : String) (dbt : DBType),
    count = i + cols.length →
    columnPlaceholdersAux count sep dbt i cols = columnEqFrom sep dbt i cols := by
  intro cols
  induction cols with
  | nil => intros; rfl
  | cons c rest ih =>
    intro i count sep dbt h
    have hif : (if i + 1 < count then sep else "") = (if rest.isEmpty then "" else sep) := by
      cases rest with
      | nil =>
        simp only [List.length_cons, List.length_nil] at h
        rw [if_neg (by omega)]
        simp
      | cons r rs =>
        simp only [List.length_cons] at h
        rw [if_pos (by omega)]
        simp
    simp only [columnPlaceholdersAux, columnEqFrom, hif,
      ih (i + 1) count sep dbt (by simp only [List.length_cons] at h; omega)]

lemma columnPlaceholders_eq (cols : List String) (sep : String) (dbt : DBType) :
    columnPlaceholders cols sep dbt = columnEqFrom sep dbt 0 cols :=
  columnPlaceholdersAux_eq cols 0 cols.length sep dbt (by omega)

lemma parseTagFlags_Field : ∀ (toks : List String) (col : columnMap),
    (parseTagFlags col toks).Field = col.Field := by
  intro toks
  induction toks with
  | nil => intro col; rfl
  | cons f rest ih =>
    intro col
    unfold parseTagFlags
    split_ifs <;> rw [ih]

lemma parseTagFlags_Name : ∀ (toks : List String) (col : columnMap),
    (parseTagFlags col toks).Name = if col.Name = "" then tagNameOf toks else col.Name := by
  intro toks
  induction toks with
  | nil =>
    intro col
    by_cases h : col.Name = "" <;> simp [parseTagFlags, tagNameOf, h]
  | cons f rest ih =>
    intro col
    unfold parseTagFlags
    by_cases h1 : f = "pk"
    · rw [if_pos h1, ih]
      simp [tagNameOf, List.filter_cons, h1]
    · rw [if_neg h1]
      by_cases h2 : f = "serialize"
      · rw [if_pos h2, ih]
        simp [tagNameOf, List.filter_cons, h2]
      · rw [if_neg h2]
        by_cases h3 : col.Name = ""
        · rw [if_pos h3, ih]
          by_cases h4 : f = ""
          · simp [tagNameOf, List.filter_cons, h4, h3]
          · simp [tagNameOf, List.filter_cons, h1, h2, h4, h3]
        · rw [if_neg h3, ih, if_neg h3, if_neg h3]

lemma getTableColumnsAux_mem : ∀ (tags : List String) (i : Nat) (c : columnMap),
    c ∈ getTableColumnsAux i tags →
    i ≤ c.Field ∧ c.Field - i < tags.length ∧
    (goSplitComma (tags.getD (c.Field - i) "")).headD "" ≠ "" ∧
    c.Name = tagNameOf (goSplitComma (tags.getD (c.Field - i) "")) := by
  intro tags
  induction tags with
  | nil => intro i c h; simp [getTableColumnsAux] at h
  | cons tagStr rest ih =>
    intro i c h
    unfold getTableColumnsAux at h
    by_cases hcond : (goSplitComma tagStr).headD "" ≠ ""
    · rw [if_pos hcond] at h
      rcases List.mem_cons.mp h with hc | hc
      · have hf : c.Field = i := by rw [hc, parseTagFlags_Field]
        have hsub : c.Field - i = 0 := by omega
        refine ⟨by omega, by simp [hsub], by simpa [hsub] using hcond, ?_⟩
        rw [hsub, List.getD_cons_zero, hc, parseTagFlags_Name]
        rfl
      · obtain ⟨h1, h2, h3, h4⟩ := ih (i + 1) c hc
        have hsub : c.Field - i = (c.Field - (i + 1)) + 1 := by omega
        rw [hsub, List.getD_cons_succ]
        exact ⟨by omega, by simp only [List.length_cons]; omega, h3, h4⟩
    · rw [if_neg hcond] at h
      obtain ⟨h1, h2, h3, h4⟩ := ih (i + 1) c h
      have hsub : c.Field - i = (c.Field - (i + 1)) + 1 := by omega
      rw [hsub, List.getD_cons_succ]
      exact ⟨by omega, by simp only [List.length_cons]; omega, h3, h4⟩

lemma getTableColumnsAux_chain : ∀ (tags : List String) (i : Nat),
    List.Chain' (fun a b : columnMap => a.Field < b.Field) (getTableColumnsAux i tags) := by
  intro tags
  induction tags with
  | nil => intro i; simp [getTableColumnsAux]
  | cons tagStr rest ih =>
    intro i
    unfold getTableColumnsAux
    by_cases hcond : (goSplitComma tagStr).headD "" ≠ ""
    · rw [if_pos hcond]
      refine List.chain'_cons'.mpr ⟨?_, ih (i + 1)⟩
      intro b hb
      have hbmem : b ∈ getTableColumnsAux (i + 1) rest := List.mem_of_mem_head? hb
      have h1 := (getTableColumnsAux_mem rest (i + 1) b hbmem).1
      rw [parseTagFlags_Field]
      show i < b.Field
      omega
    · rw [if_neg hcond]
      exact ih (i + 1)

lemma prepareInsert_columns (fields : List GoValue) : ∀ cols : List columnMap,
    (prepareInsertSqlColumnsValues fields cols).1 =
      (cols.filter fun c =>
        !(fields.getD c.Field GoValue.zeroVal).skippedOnInsert).map columnMap.Name := by
  intro cols
  induction cols with
  | nil => rfl
  | cons c rest ih =>
    simp only [prepareInsertSqlColumnsValues, List.filter_cons]
    cases hv : (fields.getD c.Field GoValue.zeroVal).skippedOnInsert <;> simp [hv, ih]

/-! ### Claims -/

/-- C1 (counterexample): the claim's "in particular" part fails — a
PostgreSQL UPDATE with two bound parameters (one SET value, one key value)
renders `$1` twice, because `columnPlaceholders` restarts numbering at 1 for
the SET clause and again for the WHERE clause; it does not render the
distinct consecutive `$1, $2`. -/
theorem c1_counterexample :
    sqlUpdateString "posts" ["title"] ["id"] DBType.PostgreSQL =
      "UPDATE posts SET title = $1 WHERE id = $1" ∧
    sqlUpdateString "posts" ["title"] ["id"] DBType.PostgreSQL ≠
      "UPDATE posts SET title = $1 WHERE id = $2" := by
  constructor
  · rfl
  · decide

/-- C1 (amended): every placeholder list renders in the configured family
with `, ` separators and one placeholder per bound parameter — `?` repeated
for the positional dialect, `$1..$N` for the numbered dialect — but the `$n`
numbering restarts at 1 in each independently rendered clause, so an UPDATE
renders `$1..$k` in SET and `$1..$m` again in WHERE rather than distinct
consecutive numbers across the whole statement. -/
theorem c1_amended :
    (∀ n : Nat, sqlPlaceholders (n + 1) DBType.Cassandra = some (questionPlaceholders (n + 1))) ∧
    (∀ n : Nat, sqlPlaceholders n DBType.PostgreSQL = some (dollarPlaceholders n)) ∧
    (∀ (cols : List String) (sep : String) (dbt : DBType),
      columnPlaceholders cols sep dbt = columnEqFrom sep dbt 0 cols) ∧
    (∀ (t : String) (setCols keys : List String) (dbt : DBType),
      sqlUpdateString t setCols keys dbt =
        "UPDATE " ++ t ++ " SET " ++ columnEqFrom ", " dbt 0 setCols ++
          " WHERE " ++ columnEqFrom " AND " dbt 0 keys) := by
  refine ⟨sqlPlaceholders_cassandra, sqlPlaceholders_postgres, columnPlaceholders_eq, ?_⟩
  intro t setCols keys dbt
  unfold sqlUpdateString
  rw [columnPlaceholders_eq, columnPlaceholders_eq]

/-- C2 (code bug): `Update` on the registered posts record with an empty
data map does not reject or no-op — `tableMap.update` unconditionally builds
the malformed statement `UPDATE posts SET  WHERE id = ?` (empty SET list)
and hands it to the executor, binding only the key value. -/
theorem c2_theorem :
    tableMap.update postsTable DBType.Cassandra [GoValue.intv 7, GoValue.str "old"] [] =
      ("UPDATE posts SET  WHERE id = ?", [GoValue.intv 7],
        [GoValue.intv 7, GoValue.str "old"]) := by
  decide

/-- C3: the INSERT column list is exactly the table's mapped columns whose
field values survive the nil/empty skip test, in table order (first
conjunct); registration lists columns in strictly increasing
field-declaration order (second conjunct) and only for fields whose `db`
tag's first token is non-empty, so untagged fields appear nowhere (third
conjunct). -/
theorem c3_theorem :
    (∀ (fields : List GoValue) (cols : List columnMap),
      (prepareInsertSqlColumnsValues fields cols).1 =
        (cols.filter fun c =>
          !(fields.getD c.Field GoValue.zeroVal).skippedOnInsert).map columnMap.Name) ∧
    (∀ tags : List String,
      List.Chain' (fun a b => a < b) ((getTableColumns tags).map columnMap.Field)) ∧
    (∀ tags : List String,
      ((getTableColumns tags).all fun c =>
        (goSplitComma (tags.getD c.Field "")).headD "" != "") = true) := by
  refine ⟨prepareInsert_columns, ?_, ?_⟩
  · intro tags
    rw [List.chain'_map]
    exact getTableColumnsAux_chain tags 0
  · intro tags
    rw [List.all_eq_true]
    intro c hc
    have h := (getTableColumnsAux_mem tags 0 c hc).2.2.1
    simpa using h

/-- C4: `Update` mutates the record first and reads primary-key values
afterwards.  First conjunct: the spec's example —
`Update(&post, {"title": "new"})` with `post.ID = 7` produces
`UPDATE posts SET title = ? WHERE id = ?` bound to `("new", 7)` and the
record mutated.  Second conjunct: when the data map includes the primary-key
column itself, the WHERE clause binds the just-written new key value, never
the original field value.  Third conjunct: the bound values are always the
SET values followed by the key values read from the post-mutation record. -/
theorem c4_theorem :
    tableMap.update postsTable DBType.Cassandra [GoValue.intv 7, GoValue.str "old"]
        [("title", GoValue.str "new")] =
      ("UPDATE posts SET title = ? WHERE id = ?",
       [GoValue.str "new", GoValue.intv 7],
       [GoValue.intv 7, GoValue.str "new"]) ∧
    (∀ (tname pkName : String) (v f0 : GoValue) (restF : List GoValue) (dbt : DBType),
      tableMap.update
          { Name := tname,
            Columns := [{ Name := pkName, Serialize := false, PrimaryKey := true,
                          Field := 0 }] }
          dbt (f0 :: restF) [(pkName, v)] =
        (sqlUpdateString tname [pkName] [pkName] dbt,
         [v.indirect, v.indirect], v :: restF)) ∧
    (∀ (t : tableMap) (dbt : DBType) (fields : List GoValue)
        (data : List (String × GoValue)),
      (tableMap.update t dbt fields data).2.1 =
        (updateAndGetSqlColumnsValues fields t.Columns data).2.1 ++
          (keysForUpdate (updateAndGetSqlColumnsValues fields t.Columns data).2.2
            t.Columns).2) := by
  refine ⟨by decide, ?_, ?_⟩
  · intro tname pkName v f0 restF dbt
    simp [tableMap.update, updateAndGetSqlColumnsValues, lookupData, keysForUpdate,
      List.find?]
  · intro t dbt fields data
    rfl

/-- C5 (code bug): `Where` appends ` =` whenever the fragment's
second-to-last OR third-to-last byte is not a space (the source uses `||`),
so the custom operator fragment `"age >"` — whose third-to-last byte is
`e` — gets an extra ` =` and renders as the malformed `age > = ?` instead of
`age > ?`; a bare column name such as `"title"` renders as `title = ?` as
claimed. -/
theorem c5_theorem :
    ((Mapping.mkQuery postsTable DBType.Cassandra "*").Where "age >" (GoValue.intv 21)).map
        Query.conditions = some ["age > = ?"] ∧
    ((Mapping.mkQuery postsTable DBType.Cassandra "*").Where "title" (GoValue.str "hi")).map
        Query.conditions = some ["title = ?"] := by
  constructor <;> decide

/-- C6: `SelectOne` returns `(nil, nil)` when the executor yields zero rows,
propagates any executor error with a nil record, likewise propagates any
error of the whole select — executor, row-scan, or serialize-decode failure
alike — with a nil record, and otherwise returns exactly the first scanned
row: the scatter of the first row the executor returned, in order. -/
theorem c6_theorem :
    ∀ (decode : String → Option GoValue) (tcols : List columnMap) (nf : Nat)
      (names : List String) (e : String) (row : List GoValue)
      (rest out : List (List GoValue)),
    SelectOne decode tcols nf (Except.ok (names, [])) = (none, none) ∧
    SelectOne decode tcols nf (Except.error e) = (none, some e) ∧
    (∀ queryResult : Except String (List String × List (List GoValue)),
      doSelect decode tcols nf queryResult = Except.error e →
      SelectOne decode tcols nf queryResult = (none, some e)) ∧
    (doSelect decode tcols nf (Except.ok (names, row :: rest)) = Except.ok out →
      out ≠ [] ∧
      scanOneRow decode tcols nf names row = Except.ok (out.headD []) ∧
      SelectOne decode tcols nf (Except.ok (names, row :: rest)) = (out.head?, none)) := by
  intro decode tcols nf names e row rest out
  refine ⟨rfl, rfl, ?_, ?_⟩
  · intro queryResult herr
    unfold SelectOne
    rw [herr]
  intro h
  unfold doSelect doSelectRows at h
  unfold SelectOne doSelect doSelectRows
  cases hscan : scanOneRow decode tcols nf names row with
  | error e2 =>
    rw [hscan] at h
    simp at h
  | ok inst =>
    rw [hscan] at h
    cases hrest : doSelectRows decode tcols nf names rest with
    | error e2 =>
      rw [hrest] at h
      simp at h
    | ok out2 =>
      rw [hrest] at h
      simp at h
      subst h
      simp

/-- C6 (witness): with the posts columns, one row `(id = 5)` yields that
record and no error; zero rows yield `(nil, nil)`; an executor error is
passed through with a nil record; a `json.Unmarshal` failure on a
serialize-flagged column and a `rows.Scan` failure (non-byte value for a
serialize column) are each returned with a nil record. -/
theorem c6_witness :
    SelectOne (fun s => some (GoValue.str s)) postsTable.Columns 2
        (Except.ok (["id"], [[GoValue.intv 5]])) =
      (some [GoValue.intv 5, GoValue.zeroVal], none) ∧
    SelectOne (fun s => some (GoValue.str s)) postsTable.Columns 2 (Except.ok (["id"], [])) =
      (none, none) ∧
    SelectOne (fun s => some (GoValue.str s)) postsTable.Columns 2 (Except.error "boom") =
      (none, some "boom") ∧
    SelectOne (fun _ => none) (getTableColumns ["id,pk", "body,serialize"]) 2
        (Except.ok (["body"], [[GoValue.str "x"]])) =
      (none, some "json: cannot unmarshal") ∧
    SelectOne (fun s => some (GoValue.str s)) (getTableColumns ["id,pk", "body,serialize"]) 2
        (Except.ok (["body"], [[GoValue.intv 3]])) =
      (none, some "sql: Scan error") := by
  have h := c6_theorem (fun s => some (GoValue.str s)) postsTable.Columns 2 ["id"] "boom"
    [GoValue.intv 5] [] [[GoValue.intv 5, GoValue.zeroVal]]
  have hdec := c6_theorem (fun _ => none) (getTableColumns ["id,pk", "body,serialize"]) 2
    ["body"] "json: cannot unmarshal" [] [] []
  have hscanfail := c6_theorem (fun s => some (GoValue.str s))
    (getTableColumns ["id,pk", "body,serialize"]) 2 ["body"] "sql: Scan error" [] [] []
  exact ⟨(h.2.2.2 (by rfl)).2.2, h.1, h.2.1,
    hdec.2.2.1 (Except.ok (["body"], [[GoValue.str "x"]])) (by rfl),
    hscanfail.2.2.1 (Except.ok (["body"], [[GoValue.intv 3]])) (by rfl)⟩

/-- C7: a result-set column name that matches no column descriptor is
tolerated during row scatter: the scan of a row carrying such a column is
the same as the scan without it — its value is discarded, the remaining
columns still land in the fresh record, and no error arises from it. -/
theorem c7_theorem :
    ∀ (decode : String → Option GoValue) (tcols : List columnMap) (nf : Nat)
      (names : List String) (row : List GoValue) (pairs : List (String × GoValue))
      (inst : List GoValue) (name : String) (v : GoValue),
    tcols.find? (fun c => c.Name = name) = none →
    scanRowAux tcols ((name, v) :: pairs) inst = scanRowAux tcols pairs inst ∧
    scanOneRow decode tcols nf (name :: names) (v :: row) =
      scanOneRow decode tcols nf names row := by
  intro decode tcols nf names row pairs inst name v h
  have h1 : ∀ (pairs2 : List (String × GoValue)) (inst2 : List GoValue),
      scanRowAux tcols ((name, v) :: pairs2) inst2 = scanRowAux tcols pairs2 inst2 := by
    intro pairs2 inst2
    conv_lhs => rw [scanRowAux]
    rw [h]
  refine ⟨h1 pairs inst, ?_⟩
  unfold scanOneRow
  rw [List.zip_cons_cons, h1]

/-- C7 (witness): against the posts columns, a result set carrying the
unknown column `junk` scans identically to one without it, and the known
column still lands in the record. -/
theorem c7_witness :
    scanOneRow (fun s => some (GoValue.str s)) postsTable.Columns 2 ["junk", "id"]
        [GoValue.str "x", GoValue.intv 9] =
      scanOneRow (fun s => some (GoValue.str s)) postsTable.Columns 2 ["id"]
        [GoValue.intv 9] ∧
    scanOneRow (fun s => some (GoValue.str s)) postsTable.Columns 2 ["id"]
        [GoValue.intv 9] = Except.ok [GoValue.intv 9, GoValue.zeroVal] := by
  refine ⟨(c7_theorem (fun s => some (GoValue.str s)) postsTable.Columns 2 ["id"]
    [GoValue.intv 9] [] [] "junk" (GoValue.str "x") (by decide)).2, by rfl⟩

/-- C8: the query builder renders `SELECT <columns> FROM <table>`, a WHERE
clause of the accumulated conditions joined with ` AND ` when any exist, an
ORDER BY clause when set, and a LIMIT clause when positive; in particular
the spec's example chain renders
`SELECT * FROM posts WHERE title = ? ORDER BY id LIMIT 5`. -/
theorem c8_theorem :
    ((Mapping.mkQuery postsTable DBType.Cassandra "*").Where "title" (GoValue.str "hi")).map
        (fun q => ((q.Order "id").Limit 5).render) =
      some "SELECT * FROM posts WHERE title = ? ORDER BY id LIMIT 5" ∧
    ∀ q : Query, Query.render q = renderSpec q := by
  refine ⟨by decide, ?_⟩
  intro q
  unfold Query.render renderSpec
  split_ifs <;> simp [String.append_assoc, String.append_empty]

/-- C9 (counterexample): a field whose `db` tag consists only of the keyword
flag `pk` is stored as a descriptor with an EMPTY exposed column name, so
the non-emptiness invariant claimed for every stored descriptor fails. -/
theorem c9_counterexample :
    getTableColumns ["pk"] =
      [{ Name := "", Serialize := false, PrimaryKey := true, Field := 0 }] ∧
    ¬ ∀ c ∈ getTableColumns ["pk"], c.Name ≠ "" := by
  constructor
  · decide
  · decide

/-- C9 (amended): every stored descriptor's exposed name is the first tag
token that is neither `pk` nor `serialize` nor empty; when the tag consists
only of keyword flags, the descriptor is still stored but its exposed name
is the empty string. -/
theorem c9_amended : ∀ (tags : List String), ∀ c ∈ getTableColumns tags,
    c.Name = tagNameOf (goSplitComma (tags.getD c.Field "")) := by
  intro tags c hc
  have h := (getTableColumnsAux_mem tags 0 c hc).2.2.2
  simpa using h

/-- C9 (witness): the descriptor registered for a field tagged `id,pk` is
named by the first non-keyword token, `id`. -/
theorem c9_witness :
    ({ Name := "id", Serialize := false, PrimaryKey := true, Field := 0 } : columnMap) ∈
      getTableColumns ["id,pk"] ∧
    ({ Name := "id", Serialize := false, PrimaryKey := true, Field := 0 } : columnMap).Name =
      tagNameOf (goSplitComma (["id,pk"].getD 0 "")) := by
  refine ⟨by decide, c9_amended ["id,pk"] _ (by decide)⟩

/-- C10: rendering a placeholder list for zero parameters panics under the
positional dialect (the slice bound `(0*3)-2` is negative) — so an Insert
that skips every mapped field, an InsertValues with no columns, and an
`In` with no values all panic instead of producing a statement — while the
numbered dialect yields an empty placeholder list. -/
theorem c10_theorem :
    sqlPlaceholders 0 DBType.Cassandra = none ∧
    sqlPlaceholders 0 DBType.PostgreSQL = some "" ∧
    tableMap.insert { Name := "t", Columns := getTableColumns ["xs,serialize"] }
        DBType.Cassandra [GoValue.slice 0] = none ∧
    tableMap.insert { Name := "t", Columns := getTableColumns ["xs,serialize"] }
        DBType.PostgreSQL [GoValue.slice 0] =
      some ("INSERT INTO t () VALUES ()", []) ∧
    InsertValues "t" [] [] DBType.Cassandra = none ∧
    ((Mapping.mkQuery postsTable DBType.Cassandra "*").In "id" []).map Query.conditions =
      none ∧
    ((Mapping.mkQuery postsTable DBType.PostgreSQL "*").In "id" []).map Query.conditions =
      some ["id IN ()"] := by
  refine ⟨rfl, rfl, by decide, by decide, by decide, by decide, by decide⟩
